import Mathlib

/-!
Verification of the `variant_ii::Variant` container (src/variant_ii.hpp): a
tagged union over a fixed list of alternative types, with a discriminant
(`type_idx_`), a raw storage cell, exception-aware copy/move/assign/emplace/swap
operations, a "valueless by exception" sentinel state, a conversion resolver for
converting construction/assignment, and checked (`get`) / unchecked-null
(`get_if`) accessors.

Embedding conventions:
* Alternatives are modelled semantically by `AltOps V`: each alternative's
  special member functions act on an abstract value domain `V`, and any of them
  may throw.  Throwing is modelled with `Except`; the `error` payload carries
  the state of the operands at the moment the exception propagates (a throwing
  special member of an alternative leaves its operands in the states it
  reports).
* A variant instance is `Variant V`: the discriminant `type_idx_ : Nat` and the
  storage cell `storage_ : V`.  As in the C++ code the storage keeps its last
  bytes ("stale" value) after the live object is destroyed; only the
  discriminant says whether an object is live.
* The recursive template helpers (`destroy<Idx>`, `move_construct<Idx>`, ...)
  scan indices `Idx, Idx+1, ...` up to `sizeof...(Types)`; they are embedded as
  fuel recursion where the fuel is the number of remaining indices, with the
  base specialisation at fuel `0`.
* Destructors are `noexcept` and their side effects are outside the model, so
  `destroy` only updates the discriminant.
* The compile-time machinery (`IndexOf`, `TypeAtIdx`, `ChooseConvertible`) is
  embedded over an abstract type universe `Ty`; an ill-formed instantiation
  (compile-time rejection) is `none`.
-/

namespace VariantII

/-- Embedding of `inline constexpr size_t variant_npos = -1;` on a 64-bit
`size_t`.  The class carries `static_assert(sizeof...(Types) < variant_npos)`,
so theorems relate the alternative count `N` to this bound by hypothesis. -/
def variant_npos : Nat := 2 ^ 64 - 1

/-- Semantic model of one alternative type: its special member functions over
the abstract value domain `V`, each allowed to throw.  For `move`/`moveAssign`/
`swapVals` the result carries the post-call states of all mutated operands;
the `error` payload carries their states when the exception propagates.
`nothrowCopy`/`nothrowMove` are `is_nothrow_copy_constructible_v` /
`is_nothrow_move_constructible_v` of the alternative. -/
structure AltOps (V : Type) where
  copy : V → Except Unit V
  move : V → Except V (V × V)
  assign : V → V → Except V V
  moveAssign : V → V → Except (V × V) (V × V)
  swapVals : V → V → Except (V × V) (V × V)
  nothrowCopy : Bool
  nothrowMove : Bool

/-- The variant's state: discriminant plus storage cell (`size_t type_idx_;`
and the byte array `storage_`).  The storage keeps a stale value while
`type_idx_ = variant_npos`. -/
structure Variant (V : Type) where
  type_idx_ : Nat
  storage_ : V
deriving DecidableEq, Repr

/-- Embedding of `size_t index() const noexcept { return type_idx_; }`. -/
def Variant.index {V : Type} (v : Variant V) : Nat := v.type_idx_

/-- Embedding of `bool valueless_by_exception() const noexcept
{ return type_idx_ == variant_npos; }`. -/
def Variant.valueless_by_exception {V : Type} (v : Variant V) : Bool :=
  v.type_idx_ == variant_npos

section Ops

variable {V : Type}

/-- Embedding of the recursive template `destroy<Idx>` (scan `k` with `rem`
remaining indices; the base specialisation `destroy<sizeof...(Types)>` is the
fuel-0 case): find the live alternative, run its (noexcept) destructor, set the
discriminant to the sentinel. -/
def destroyAux : Nat → Nat → Variant V → Variant V
  | _, 0, v => v
  | k, rem + 1, v =>
    if k ≠ v.type_idx_ then destroyAux (k + 1) rem v
    else { v with type_idx_ := variant_npos }

/-- Embedding of `destroy<0>()` for a variant over `N` alternatives. -/
def destroy (N : Nat) (v : Variant V) : Variant V := destroyAux 0 N v

/-- Embedding of the recursive template `copy_construct<Idx>(const Variant&)`:
scan for `other`'s live alternative and placement-copy-construct it into
`self`'s storage.  A throwing copy constructor leaves `self` unchanged (its
storage holds no new object). -/
def copyConstructAux (alts : Nat → AltOps V) :
    Nat → Nat → Variant V → Variant V → Except (Variant V) (Variant V)
  | _, 0, self, _ => .ok self
  | k, rem + 1, self, other =>
    if k ≠ other.type_idx_ then copyConstructAux alts (k + 1) rem self other
    else
      match (alts k).copy other.storage_ with
      | .ok w => .ok { self with storage_ := w }
      | .error _ => .error self

/-- Embedding of the recursive template `move_construct<Idx>(Variant&&)`:
scan for `other`'s live alternative and placement-move-construct it into
`self`'s storage.  The result pairs the destination state with the source
state (the source's storage is left in the move's post-call state; its
discriminant bookkeeping is the caller's responsibility). -/
def moveConstructAux (alts : Nat → AltOps V) :
    Nat → Nat → Variant V → Variant V →
    Except (Variant V × Variant V) (Variant V × Variant V)
  | _, 0, self, other => .ok (self, other)
  | k, rem + 1, self, other =>
    if k ≠ other.type_idx_ then moveConstructAux alts (k + 1) rem self other
    else
      match (alts k).move other.storage_ with
      | .ok p => .ok ({ self with storage_ := p.1 }, { other with storage_ := p.2 })
      | .error sa => .error (self, { other with storage_ := sa })

/-- Embedding of the recursive template `copy_assign_same_types<Idx>`:
`get<Idx>(*this) = get<Idx>(other)` on the common live alternative. -/
def copyAssignSameAux (alts : Nat → AltOps V) :
    Nat → Nat → Variant V → Variant V → Except (Variant V) (Variant V)
  | _, 0, self, _ => .ok self
  | k, rem + 1, self, other =>
    if k ≠ other.type_idx_ then copyAssignSameAux alts (k + 1) rem self other
    else
      match (alts k).assign self.storage_ other.storage_ with
      | .ok w => .ok { self with storage_ := w }
      | .error w => .error { self with storage_ := w }

/-- Embedding of the recursive template `move_assign_same_types<Idx>`:
`get<Idx>(*this) = get<Idx>(std::move(other))` on the common live
alternative; the result pairs target state with source state. -/
def moveAssignSameAux (alts : Nat → AltOps V) :
    Nat → Nat → Variant V → Variant V →
    Except (Variant V × Variant V) (Variant V × Variant V)
  | _, 0, self, other => .ok (self, other)
  | k, rem + 1, self, other =>
    if k ≠ other.type_idx_ then moveAssignSameAux alts (k + 1) rem self other
    else
      match (alts k).moveAssign self.storage_ other.storage_ with
      | .ok p => .ok ({ self with storage_ := p.1 }, { other with storage_ := p.2 })
      | .error p => .error ({ self with storage_ := p.1 }, { other with storage_ := p.2 })

/-- Embedding of the recursive template `swap_same_types<Idx>` (scans
`type_idx_` of `*this`): `swap(get<Idx>(*this), get<Idx>(other))` followed by
`swap(type_idx_, other.type_idx_)`; the discriminant exchange happens only if
the value swap did not throw. -/
def swapSameAux (alts : Nat → AltOps V) :
    Nat → Nat → Variant V → Variant V →
    Except (Variant V × Variant V) (Variant V × Variant V)
  | _, 0, self, other => .ok (self, other)
  | k, rem + 1, self, other =>
    if k ≠ self.type_idx_ then swapSameAux alts (k + 1) rem self other
    else
      match (alts k).swapVals self.storage_ other.storage_ with
      | .ok p =>
        .ok ({ type_idx_ := other.type_idx_, storage_ := p.1 },
             { type_idx_ := self.type_idx_, storage_ := p.2 })
      | .error p => .error ({ self with storage_ := p.1 }, { other with storage_ := p.2 })

variable [Inhabited V]

/-- Embedding of the non-trivial copy constructor
`Variant(const Variant& other) : type_idx_{other.type_idx_} {
copy_construct<0>(other); }`.  The fresh object's storage starts as junk
(`default`); if the alternative's copy constructor throws, no variant object
comes into existence. -/
def copyCtorOp (alts : Nat → AltOps V) (N : Nat) (other : Variant V) :
    Except Unit (Variant V) :=
  match copyConstructAux alts 0 N { type_idx_ := other.type_idx_, storage_ := default } other with
  | .ok s => .ok s
  | .error _ => .error ()

/-- Embedding of the non-trivial move constructor
`Variant(Variant&& other) : type_idx_{other.type_idx_} {
move_construct<0>(std::move(other)); }`.  On success the result pairs the new
variant with the source's post-move state; on a throw the `error` payload is
the source's state (the new object never exists). -/
def moveCtorOp (alts : Nat → AltOps V) (N : Nat) (other : Variant V) :
    Except (Variant V) (Variant V × Variant V) :=
  match moveConstructAux alts 0 N { type_idx_ := other.type_idx_, storage_ := default } other with
  | .ok p => .ok p
  | .error p => .error p.2

/-- Embedding of the recursive template `copy_assign<Idx>(const Variant&)`
(the cross-alternative rebuild): at `other`'s live alternative `T`, if
`is_nothrow_copy_constructible_v<T> || !is_nothrow_move_constructible_v<T>`
placement-copy-construct directly; otherwise build a whole temporary
`Variant(other)` and placement-move-construct from
`get<Idx>(std::move(tmp))`.  `N` is the alternative count (needed by the
temporary's copy constructor). -/
def copyAssignAux (alts : Nat → AltOps V) (N : Nat) :
    Nat → Nat → Variant V → Variant V → Except (Variant V) (Variant V)
  | _, 0, self, _ => .ok self
  | k, rem + 1, self, other =>
    if k ≠ other.type_idx_ then copyAssignAux alts N (k + 1) rem self other
    else if (alts k).nothrowCopy || !(alts k).nothrowMove then
      match (alts k).copy other.storage_ with
      | .ok w => .ok { self with storage_ := w }
      | .error _ => .error self
    else
      match copyCtorOp alts N other with
      | .error _ => .error self
      | .ok tmpv =>
        match (alts k).move tmpv.storage_ with
        | .ok p => .ok { self with storage_ := p.1 }
        | .error _ => .error self

/-- Embedding of the non-trivial move assignment `operator=(Variant&& other)`:
valueless source (destroy target if live), same-discriminant fast path
(`move_assign_same_types<0>`), or cross-alternative rebuild (`destroy<0>();
move_construct<0>(std::move(other)); type_idx_ = other.type_idx_;`).  The
result pairs target state with source state. -/
def moveAssignOp (alts : Nat → AltOps V) (N : Nat) (self other : Variant V) :
    Except (Variant V × Variant V) (Variant V × Variant V) :=
  if other.type_idx_ = variant_npos then
    if self.type_idx_ = variant_npos then .ok (self, other)
    else .ok (destroy N self, other)
  else if self.type_idx_ = other.type_idx_ then
    moveAssignSameAux alts 0 N self other
  else
    match moveConstructAux alts 0 N (destroy N self) other with
    | .ok p => .ok ({ p.1 with type_idx_ := p.2.type_idx_ }, p.2)
    | .error p => .error p

/-- Embedding of the non-trivial copy assignment `operator=(const Variant&
other)`: valueless source (destroy target if live), same-discriminant fast
path (`copy_assign_same_types<0>(other); type_idx_ = other.type_idx_;`), or
cross-alternative rebuild (`destroy<0>(); copy_assign<0>(other); type_idx_ =
other.type_idx_;`).  The `const` source is unchanged, so only the target's
state is returned. -/
def copyAssignOp (alts : Nat → AltOps V) (N : Nat) (self other : Variant V) :
    Except (Variant V) (Variant V) :=
  if other.type_idx_ = variant_npos then
    if self.type_idx_ = variant_npos then .ok self
    else .ok (destroy N self)
  else if self.type_idx_ = other.type_idx_ then
    match copyAssignSameAux alts 0 N self other with
    | .ok s => .ok { s with type_idx_ := other.type_idx_ }
    | .error s => .error s
  else
    match copyAssignAux alts N 0 N (destroy N self) other with
    | .ok s => .ok { s with type_idx_ := other.type_idx_ }
    | .error s => .error s

/-- Embedding of `emplace<Idx>(args...)`: `destroy<0>(); new(storage_.data())
T(std::forward<Args>(args)...); type_idx_ = Idx;`.  The construction attempt
`T(args...)` is modelled by its outcome `ctorRes`; the discriminant becomes
`i` only after the construction succeeds, so a throw leaves the variant in the
destroyed (valueless) state. -/
def emplaceOp (N : Nat) (i : Nat) (ctorRes : Except Unit V) (self : Variant V) :
    Except (Variant V) (Variant V) :=
  let s := destroy N self
  match ctorRes with
  | .ok w => .ok { type_idx_ := i, storage_ := w }
  | .error _ => .error s

/-- Embedding of `swap(Variant& other)`: if both valueless, no-op; if equal
discriminants, `swap_same_types<0>(other)`; otherwise the 3-way rotation
`Variant tmp(std::move(other)); other.type_idx_ = variant_npos;
other.move_construct<0>(std::move(*this)); other.type_idx_ = type_idx_;
type_idx_ = variant_npos; move_construct<0>(std::move(tmp));
type_idx_ = tmp.type_idx_;`.  The result pairs `*this`'s state with
`other`'s state, also when an exception propagates. -/
def swapOp (alts : Nat → AltOps V) (N : Nat) (self other : Variant V) :
    Except (Variant V × Variant V) (Variant V × Variant V) :=
  if self.type_idx_ = variant_npos ∧ other.type_idx_ = variant_npos then
    .ok (self, other)
  else if self.type_idx_ = other.type_idx_ then
    swapSameAux alts 0 N self other
  else
    match moveConstructAux alts 0 N { type_idx_ := other.type_idx_, storage_ := default } other with
    | .error p => .error (self, p.2)
    | .ok (tmp, other1) =>
      match moveConstructAux alts 0 N { other1 with type_idx_ := variant_npos } self with
      | .error p => .error (p.2, p.1)
      | .ok (other2, self1) =>
        match moveConstructAux alts 0 N { self1 with type_idx_ := variant_npos } tmp with
        | .error p => .error (p.1, { other2 with type_idx_ := self1.type_idx_ })
        | .ok (self2, tmp1) =>
          .ok ({ self2 with type_idx_ := tmp1.type_idx_ },
               { other2 with type_idx_ := self1.type_idx_ })

/-- Semantic model of a converting-assignment input for `operator=(T&& t)`:
the resolved target alternative `To = ChooseConvertibleT<T, Types...>` and
the operations the body can invoke on the input value.  `toIdx` is
`IndexOf<To, Types...>::value`; `construct` is the outcome of
`To(std::forward<T>(t))`; `assignTo` is `get<Idx>(*this) =
std::forward<T>(t)` on a live `To` (target state in, new target state or
throw-state out); `nothrowConstruct` is `is_nothrow_constructible_v<To, T>`.
-/
structure ConvOps (V : Type) where
  toIdx : Nat
  construct : Except Unit V
  assignTo : V → Except V V
  nothrowConstruct : Bool

/-- Embedding of the recursive template `convert_assign<Idx, T>(T&& t)`
(scans the CURRENT discriminant `type_idx_`): at the live alternative, if it
is already the resolved `To`, assign in place; else if
`is_nothrow_constructible_v<To, T> || !is_nothrow_move_constructible_v<To>`,
`destroy<0>()` then construct `To` directly into storage and set the
discriminant; else `destroy<0>()`, build a temporary `To` from the input and
move-construct it into storage.  Any throw after `destroy<0>()` leaves the
destroyed (valueless) state. -/
def convertAssignAux (alts : Nat → AltOps V) (N : Nat) (co : ConvOps V) :
    Nat → Nat → Variant V → Except (Variant V) (Variant V)
  | _, 0, self => .ok self
  | k, rem + 1, self =>
    if k ≠ self.type_idx_ then convertAssignAux alts N co (k + 1) rem self
    else if k = co.toIdx then
      match co.assignTo self.storage_ with
      | .ok w => .ok { self with storage_ := w }
      | .error w => .error { self with storage_ := w }
    else if co.nothrowConstruct || !(alts co.toIdx).nothrowMove then
      match co.construct with
      | .ok w => .ok { type_idx_ := co.toIdx, storage_ := w }
      | .error _ => .error (destroy N self)
    else
      match co.construct with
      | .error _ => .error (destroy N self)
      | .ok c =>
        match (alts co.toIdx).move c with
        | .ok p => .ok { type_idx_ := co.toIdx, storage_ := p.1 }
        | .error _ => .error (destroy N self)

/-- Embedding of the converting assignment `operator=(T&& t)`:
`convert_assign<0>(std::forward<T>(t)); return *this;`. -/
def convertAssignOp (alts : Nat → AltOps V) (N : Nat) (co : ConvOps V)
    (self : Variant V) : Except (Variant V) (Variant V) :=
  convertAssignAux alts N co 0 N self

/-- Embedding of the in-place constructors `Variant(in_place_index_t<Idx>,
Args&&...)` / `Variant(in_place_type_t<T>, Args&&...)`: the discriminant is
`Idx` (resp. `IndexOf<T, Types...>::value`) and the alternative is
constructed directly from the arguments, whose outcome is `ctorRes`; a
constructor failure propagates and no variant object comes into existence. -/
def inPlaceCtorOp (i : Nat) (ctorRes : Except Unit V) : Except Unit (Variant V) :=
  match ctorRes with
  | .ok w => .ok { type_idx_ := i, storage_ := w }
  | .error _ => .error ()

/-- Embedding of the default constructor `Variant()`: constructs
`TypeAtIdx<0, Types...>::type` at discriminant `0`; the construction outcome
is `ctorRes`. -/
def defaultCtorOp (ctorRes : Except Unit V) : Except Unit (Variant V) :=
  match ctorRes with
  | .ok w => .ok { type_idx_ := 0, storage_ := w }
  | .error _ => .error ()

end Ops

section Accessors

variable {V : Type}

/-- Embedding of `get_if<Idx>(const Variant<Args...>* variant)`: null when the
pointer is null or the discriminant differs from `Idx`, else a pointer to the
storage reinterpreted as the requested alternative.  A null pointer argument
is `none`; a null result is `none`. -/
def get_if (i : Nat) (v : Option (Variant V)) : Option V :=
  match v with
  | none => none
  | some w => if i ≠ w.type_idx_ then none else some w.storage_

/-- Embedding of checked `get<Idx>(const Variant<Args...>&)`: goes through
`get_if<Idx>(&variant)` and throws `std::runtime_error` (the
AlternativeMismatch error) when it returns null. -/
def getIdx (i : Nat) (v : Variant V) : Except Unit V :=
  match get_if i (some v) with
  | some x => .ok x
  | none => .error ()

end Accessors

section TypeLevel

variable {Ty : Type} [DecidableEq Ty]

/-- Embedding of the recursive template `IndexOfImpl<Search, Idx, T, Types...>`:
position of the first occurrence of `Search`, counting from `Idx`.  An empty
remaining list means the primary template has no `value` member: a
compile-time failure, embedded as `none`. -/
def indexOfAux (search : Ty) : Nat → List Ty → Option Nat
  | _, [] => none
  | idx, t :: ts => if t = search then some idx else indexOfAux search (idx + 1) ts

/-- Embedding of `IndexOf<T, Types...>::value`. -/
def IndexOf (t : Ty) (ts : List Ty) : Option Nat := indexOfAux t 0 ts

/-- Embedding of the recursive template `TypeAtIdxImpl<Idx, CurIdx, T,
Types...>`: the alternative at position `Idx`; running out of types is a
compile-time failure, embedded as `none`. -/
def typeAtIdxAux (idx : Nat) : Nat → List Ty → Option Ty
  | _, [] => none
  | cur, t :: ts => if cur = idx then some t else typeAtIdxAux idx (cur + 1) ts

/-- Embedding of `TypeAtIdx<Idx, Types...>::type`. -/
def TypeAtIdx (i : Nat) (ts : List Ty) : Option Ty := typeAtIdxAux i 0 ts

/-- Embedding of the conversion resolver `ChooseConvertibleT<From, Types...>`:
`ChooseConvertible` declares one overload `static To F(To)` per alternative
`To` with `NotNarrow<From, To>` (duplicate alternatives produce one merged
declaration), and `ChooseConvertibleT` is the result type of overload
resolution of `F(declval<From>())`.  Each candidate takes `To` by value, so
resolution compares the single implicit conversion sequences `From → To`:
`rank f to` embeds the standard-conversion-sequence ranking (exact match <
promotion < conversion; lower is better), and a candidate is chosen only if
its sequence ranks strictly better than every other viable candidate's —
equal best ranks are ambiguous.  When `From` is itself a candidate its
identity conversion (Exact Match) beats every conversion to a distinct
by-value parameter type, so an exact match wins outright.  No viable
candidate, or an ambiguity, is ill-formed, embedded as `none`.  `nn from to`
embeds the `NotNarrow<From, To>` concept. -/
def chooseConvertibleT (nn : Ty → Ty → Bool) (rank : Ty → Ty → Nat)
    (f : Ty) (ts : List Ty) : Option Ty :=
  let cs := (ts.filter fun u => nn f u).dedup
  if f ∈ cs then some f
  else
    match cs.filter fun c => cs.all fun d => d == c || decide (rank f c < rank f d) with
    | [c] => some c
    | _ => none

/-- Embedding of `IsConvertibleV<From, Types...>`:
`!std::is_same_v<ChooseConvertibleT<From, Types...>, void>`. -/
def IsConvertibleV (nn : Ty → Ty → Bool) (rank : Ty → Ty → Nat)
    (f : Ty) (ts : List Ty) : Bool :=
  (chooseConvertibleT nn rank f ts).isSome

variable {V : Type}

/-- Embedding of the converting constructor `Variant(T&& var)`:
`type_idx_{IndexOf<ChooseConvertibleT<T, Types...>, Types...>::value}` and
`new(storage_.data()) ChooseConvertibleT<T, Types...>(std::forward<T>(var))`.
`conv t to` models constructing alternative `to` from a value of type `t`;
`none` is the compile-time rejection when the requires-clause
(`IsConvertibleV`) fails or the chosen type is not found in the list. -/
def convertingCtor (nn : Ty → Ty → Bool) (rank : Ty → Ty → Nat)
    (conv : Ty → Ty → V → V)
    (ts : List Ty) (t : Ty) (v : V) : Option (Variant V) :=
  match chooseConvertibleT nn rank t ts with
  | none => none
  | some toT =>
    match IndexOf toT ts with
    | none => none
    | some i => some { type_idx_ := i, storage_ := conv t toT v }

/-- Embedding of by-type `get_if<T>`: delegates to
`get_if<IndexOf<T, Args...>::value>`; a type not in the list is a compile-time
failure (`none`). -/
def get_ifType (t : Ty) (ts : List Ty) (v : Option (Variant V)) : Option V :=
  match IndexOf t ts with
  | some i => get_if i v
  | none => none

/-- Embedding of by-type checked `get<T>`: delegates to
`get<IndexOf<T, Args...>::value>`. -/
def getType (t : Ty) (ts : List Ty) (v : Variant V) : Except Unit V :=
  match IndexOf t ts with
  | some i => getIdx i v
  | none => .error ()

/-- Embedding of `holds_alternative<T>(const Variant<Types...>&)`:
`v.index() == IndexOf<T, Types...>::value`. -/
def holds_alternative (t : Ty) (ts : List Ty) (v : Variant V) : Bool :=
  match IndexOf t ts with
  | some i => v.type_idx_ == i
  | none => false

end TypeLevel

/-- A trivial alternative over `Nat` whose special members never throw and
whose constructors preserve the value (the moved-from state is `0`), like
`int` or `char` in the tests. -/
def trivAlt : AltOps Nat where
  copy := fun v => .ok v
  move := fun v => .ok (v, 0)
  assign := fun _ s => .ok s
  moveAssign := fun _ s => .ok (s, 0)
  swapVals := fun a b => .ok (b, a)
  nothrowCopy := true
  nothrowMove := true

/-- A list of trivial alternatives. -/
def altsTriv : Nat → AltOps Nat := fun _ => trivAlt

/-- Alternative 0's move constructor throws (leaving the source unchanged),
as `utility::MoveThrowsSwappable` in the tests; alternative 1 is trivial. -/
def altsThrowMove0 : Nat → AltOps Nat
  | 0 => { trivAlt with move := fun v => .error v }
  | _ => trivAlt

/-- Alternative 1 has a throwing, non-noexcept copy constructor and a
noexcept move constructor, the shape that makes `copy_assign` take the
temporary-then-move branch; alternative 0 is trivial. -/
def altsThrowCopy1 : Nat → AltOps Nat
  | 1 => { trivAlt with copy := fun _ => .error (), nothrowCopy := false }
  | _ => trivAlt

/-- A converting-assignment input resolving to alternative 1, with a
nothrow, succeeding construction and in-place assignment. -/
def convTriv : ConvOps Nat where
  toIdx := 1
  construct := .ok 3
  assignTo := fun _ => .ok 3
  nothrowConstruct := true

/-- A `NotNarrow` relation under which every conversion is non-narrowing,
like `short` against the alternatives `int` and `long`. -/
def nnAllC7 : Nat → Nat → Bool := fun _ _ => true

/-- A conversion ranking under which the conversion to a smaller-numbered
alternative ranks strictly better, like the integral promotion `short → int`
against the integral conversion `short → long`. -/
def rankC7 : Nat → Nat → Nat := fun _ u => u

/-- A construction outcome that throws, as `utility::ThrowConstructible`. -/
def throwingCtor : Except Unit Nat := .error ()

section ScanLemmas

variable {V : Type} (alts : Nat → AltOps V)

theorem destroyAux_hit (rem : Nat) : ∀ (k : Nat) (v : Variant V),
    k ≤ v.type_idx_ → v.type_idx_ < k + rem →
    destroyAux k rem v = { v with type_idx_ := variant_npos } := by
  induction rem with
  | zero => intro k v h1 h2; omega
  | succ rem ih =>
    intro k v h1 h2
    simp only [destroyAux]
    by_cases hk : k = v.type_idx_
    · rw [if_neg (not_not_intro hk)]
    · rw [if_pos hk]
      exact ih (k + 1) v (by omega) (by omega)

theorem destroyAux_miss (rem : Nat) : ∀ (k : Nat) (v : Variant V),
    k + rem ≤ v.type_idx_ → destroyAux k rem v = v := by
  induction rem with
  | zero => intro k v _; simp [destroyAux]
  | succ rem ih =>
    intro k v h
    simp only [destroyAux]
    rw [if_pos (by omega)]
    exact ih (k + 1) v (by omega)

theorem destroy_live {N : Nat} {v : Variant V} (h : v.type_idx_ < N) :
    destroy N v = { v with type_idx_ := variant_npos } :=
  destroyAux_hit N 0 v (Nat.zero_le _) (by omega)

theorem destroy_out {N : Nat} {v : Variant V} (h : N ≤ v.type_idx_) :
    destroy N v = v :=
  destroyAux_miss N 0 v (by omega)

theorem copyConstructAux_hit (rem : Nat) : ∀ (k : Nat) (self other : Variant V),
    k ≤ other.type_idx_ → other.type_idx_ < k + rem →
    copyConstructAux alts k rem self other =
      match (alts other.type_idx_).copy other.storage_ with
      | .ok w => .ok { self with storage_ := w }
      | .error _ => .error self := by
  induction rem with
  | zero => intro k self other h1 h2; omega
  | succ rem ih =>
    intro k self other h1 h2
    simp only [copyConstructAux]
    by_cases hk : k = other.type_idx_
    · rw [if_neg (not_not_intro hk), hk]
    · rw [if_pos hk]
      exact ih (k + 1) self other (by omega) (by omega)

theorem moveConstructAux_hit (rem : Nat) : ∀ (k : Nat) (self other : Variant V),
    k ≤ other.type_idx_ → other.type_idx_ < k + rem →
    moveConstructAux alts k rem self other =
      match (alts other.type_idx_).move other.storage_ with
      | .ok p => .ok ({ self with storage_ := p.1 }, { other with storage_ := p.2 })
      | .error sa => .error (self, { other with storage_ := sa }) := by
  induction rem with
  | zero => intro k self other h1 h2; omega
  | succ rem ih =>
    intro k self other h1 h2
    simp only [moveConstructAux]
    by_cases hk : k = other.type_idx_
    · rw [if_neg (not_not_intro hk), hk]
    · rw [if_pos hk]
      exact ih (k + 1) self other (by omega) (by omega)

theorem moveConstructAux_miss (rem : Nat) : ∀ (k : Nat) (self other : Variant V),
    k + rem ≤ other.type_idx_ →
    moveConstructAux alts k rem self other = .ok (self, other) := by
  induction rem with
  | zero => intro k self other _; simp [moveConstructAux]
  | succ rem ih =>
    intro k self other h
    simp only [moveConstructAux]
    rw [if_pos (by omega)]
    exact ih (k + 1) self other (by omega)

theorem moveConstructAux_ok_idx (rem : Nat) : ∀ (k : Nat) (self other : Variant V)
    (p : Variant V × Variant V),
    moveConstructAux alts k rem self other = .ok p →
    p.1.type_idx_ = self.type_idx_ ∧ p.2.type_idx_ = other.type_idx_ := by
  induction rem with
  | zero =>
    intro k self other p h
    simp only [moveConstructAux] at h
    injection h with h2
    subst h2
    exact ⟨rfl, rfl⟩
  | succ rem ih =>
    intro k self other p h
    simp only [moveConstructAux] at h
    split at h
    · exact ih _ _ _ _ h
    · split at h
      · injection h with h2
        subst h2
        exact ⟨rfl, rfl⟩
      · exact Except.noConfusion h

theorem moveAssignSameAux_ok_idx (rem : Nat) : ∀ (k : Nat) (self other : Variant V)
    (p : Variant V × Variant V),
    moveAssignSameAux alts k rem self other = .ok p →
    p.1.type_idx_ = self.type_idx_ ∧ p.2.type_idx_ = other.type_idx_ := by
  induction rem with
  | zero =>
    intro k self other p h
    simp only [moveAssignSameAux] at h
    injection h with h2
    subst h2
    exact ⟨rfl, rfl⟩
  | succ rem ih =>
    intro k self other p h
    simp only [moveAssignSameAux] at h
    split at h
    · exact ih _ _ _ _ h
    · split at h
      · injection h with h2
        subst h2
        exact ⟨rfl, rfl⟩
      · exact Except.noConfusion h

theorem copyAssignSameAux_ok_idx (rem : Nat) : ∀ (k : Nat) (self other s : Variant V),
    copyAssignSameAux alts k rem self other = .ok s →
    s.type_idx_ = self.type_idx_ := by
  induction rem with
  | zero =>
    intro k self other s h
    simp only [copyAssignSameAux] at h
    injection h with h2
    subst h2
    rfl
  | succ rem ih =>
    intro k self other s h
    simp only [copyAssignSameAux] at h
    split at h
    · exact ih _ _ _ _ h
    · split at h
      · injection h with h2
        subst h2
        rfl
      · exact Except.noConfusion h

theorem swapSameAux_ok_idx (rem : Nat) : ∀ (k : Nat) (self other : Variant V)
    (p : Variant V × Variant V),
    swapSameAux alts k rem self other = .ok p →
    (p.1.type_idx_ = self.type_idx_ ∨ p.1.type_idx_ = other.type_idx_)
    ∧ (p.2.type_idx_ = self.type_idx_ ∨ p.2.type_idx_ = other.type_idx_) := by
  induction rem with
  | zero =>
    intro k self other p h
    simp only [swapSameAux] at h
    injection h with h2
    subst h2
    exact ⟨Or.inl rfl, Or.inr rfl⟩
  | succ rem ih =>
    intro k self other p h
    simp only [swapSameAux] at h
    split at h
    · exact ih _ _ _ _ h
    · split at h
      · injection h with h2
        subst h2
        exact ⟨Or.inr rfl, Or.inl rfl⟩
      · exact Except.noConfusion h

theorem copyConstructAux_ok_idx (rem : Nat) : ∀ (k : Nat) (self other s : Variant V),
    copyConstructAux alts k rem self other = .ok s →
    s.type_idx_ = self.type_idx_ := by
  induction rem with
  | zero =>
    intro k self other s h
    simp only [copyConstructAux] at h
    injection h with h2
    subst h2
    rfl
  | succ rem ih =>
    intro k self other s h
    simp only [copyConstructAux] at h
    split at h
    · exact ih _ _ _ _ h
    · split at h
      · injection h with h2
        subst h2
        rfl
      · exact Except.noConfusion h

theorem convertAssignAux_ok_idx {N : Nat} (co : ConvOps V) (rem : Nat) :
    ∀ (k : Nat) (self s : Variant V),
    convertAssignAux alts N co k rem self = .ok s →
    s.type_idx_ = self.type_idx_ ∨ s.type_idx_ = co.toIdx := by
  induction rem with
  | zero =>
    intro k self s h
    simp only [convertAssignAux] at h
    injection h with h2
    subst h2
    exact Or.inl rfl
  | succ rem ih =>
    intro k self s h
    simp only [convertAssignAux] at h
    split at h
    · exact ih _ _ _ h
    · split at h
      · split at h
        · injection h with h2
          subst h2
          exact Or.inl rfl
        · exact Except.noConfusion h
      · split at h
        · split at h
          · injection h with h2
            subst h2
            exact Or.inr rfl
          · exact Except.noConfusion h
        · split at h
          · exact Except.noConfusion h
          · split at h
            · injection h with h2
              subst h2
              exact Or.inr rfl
            · exact Except.noConfusion h

variable [Inhabited V]

theorem copyCtorOp_live {N : Nat} {other : Variant V} (h : other.type_idx_ < N) :
    copyCtorOp alts N other =
      match (alts other.type_idx_).copy other.storage_ with
      | .ok w => .ok { type_idx_ := other.type_idx_, storage_ := w }
      | .error _ => .error () := by
  unfold copyCtorOp
  rw [copyConstructAux_hit alts N 0 _ other (Nat.zero_le _) (by omega)]
  cases (alts other.type_idx_).copy other.storage_ <;> rfl

theorem copyAssignAux_hit {N : Nat} (rem : Nat) : ∀ (k : Nat) (self other : Variant V),
    k ≤ other.type_idx_ → other.type_idx_ < k + rem →
    copyAssignAux alts N k rem self other =
      if (alts other.type_idx_).nothrowCopy || !(alts other.type_idx_).nothrowMove then
        match (alts other.type_idx_).copy other.storage_ with
        | .ok w => .ok { self with storage_ := w }
        | .error _ => .error self
      else
        match copyCtorOp alts N other with
        | .error _ => .error self
        | .ok tmpv =>
          match (alts other.type_idx_).move tmpv.storage_ with
          | .ok p => .ok { self with storage_ := p.1 }
          | .error _ => .error self := by
  induction rem with
  | zero => intro k self other h1 h2; omega
  | succ rem ih =>
    intro k self other h1 h2
    simp only [copyAssignAux]
    by_cases hk : k = other.type_idx_
    · rw [if_neg (not_not_intro hk), hk]
    · rw [if_pos hk]
      exact ih (k + 1) self other (by omega) (by omega)

theorem copyAssignAux_ok_idx {N : Nat} (rem : Nat) : ∀ (k : Nat) (self other s : Variant V),
    copyAssignAux alts N k rem self other = .ok s →
    s.type_idx_ = self.type_idx_ := by
  induction rem with
  | zero =>
    intro k self other s h
    simp only [copyAssignAux] at h
    injection h with h2
    subst h2
    rfl
  | succ rem ih =>
    intro k self other s h
    simp only [copyAssignAux] at h
    split at h
    · exact ih _ _ _ _ h
    · split at h
      · split at h
        · injection h with h2
          subst h2
          rfl
        · exact Except.noConfusion h
      · split at h
        · exact Except.noConfusion h
        · split at h
          · injection h with h2
            subst h2
            rfl
          · exact Except.noConfusion h

end ScanLemmas

section TypeLevelLemmas

variable {Ty : Type} [DecidableEq Ty]

theorem indexOfAux_isSome (t : Ty) : ∀ (ts : List Ty) (k : Nat), t ∈ ts →
    ∃ i, indexOfAux t k ts = some i := by
  intro ts
  induction ts with
  | nil => intro k h; cases h
  | cons a l ih =>
    intro k h
    by_cases ha : a = t
    · exact ⟨k, by simp [indexOfAux, ha]⟩
    · obtain ⟨i, hi⟩ := ih (k + 1) (by
        rcases List.mem_cons.mp h with h1 | h1
        · exact absurd h1.symm ha
        · exact h1)
      exact ⟨i, by simp [indexOfAux, ha, hi]⟩

theorem indexOfAux_bounds (t : Ty) : ∀ (ts : List Ty) (k i : Nat),
    indexOfAux t k ts = some i → k ≤ i ∧ i < k + ts.length := by
  intro ts
  induction ts with
  | nil => intro k i h; exact Option.noConfusion h
  | cons a l ih =>
    intro k i h
    simp only [indexOfAux] at h
    by_cases ha : a = t
    · rw [if_pos ha] at h
      injection h with h2
      subst h2
      simp
    · rw [if_neg ha] at h
      have := ih (k + 1) i h
      constructor
      · omega
      · simp only [List.length_cons]
        omega

theorem chooseConvertibleT_exact (nn : Ty → Ty → Bool) (rank : Ty → Ty → Nat)
    (t : Ty) (ts : List Ty)
    (hmem : t ∈ ts) (hnn : nn t t = true) :
    chooseConvertibleT nn rank t ts = some t := by
  unfold chooseConvertibleT
  have hm : t ∈ (ts.filter fun u => nn t u).dedup :=
    List.mem_dedup.mpr (List.mem_filter.mpr ⟨hmem, hnn⟩)
  simp only [hm, if_true]

theorem eq_singleton_of_nodup {α : Type} : ∀ (l : List α) (c : α), l.Nodup → c ∈ l →
    (∀ x ∈ l, x = c) → l = [c] := by
  intro l c hnd hc hall
  cases l with
  | nil => exact absurd hc (List.not_mem_nil c)
  | cons a l2 =>
    have ha : a = c := hall a (List.mem_cons_self a l2)
    subst ha
    cases l2 with
    | nil => rfl
    | cons b l3 =>
      have hb : b = a := hall b (by simp)
      subst hb
      simp at hnd

theorem bestCandidates_spec {α : Type} [DecidableEq α] (rk : α → Nat) (l : List α)
    (c : α) (hnd : l.Nodup) :
    l.filter (fun c2 => l.all fun d => d == c2 || decide (rk c2 < rk d)) = [c]
      ↔ (c ∈ l ∧ ∀ d ∈ l, d ≠ c → rk c < rk d) := by
  constructor
  · intro h
    have hcw : c ∈ l.filter (fun c2 => l.all fun d => d == c2 || decide (rk c2 < rk d)) := by
      rw [h]
      exact List.mem_cons_self c []
    have h2 := List.mem_filter.mp hcw
    refine ⟨h2.1, ?_⟩
    intro d hd hdc
    have h3 := List.all_eq_true.mp h2.2 d hd
    rcases Bool.or_eq_true_iff.mp h3 with h4 | h4
    · exact absurd (beq_iff_eq.mp h4) hdc
    · exact of_decide_eq_true h4
  · rintro ⟨hc, hbest⟩
    have hcpred : (l.all fun d => d == c || decide (rk c < rk d)) = true := by
      apply List.all_eq_true.mpr
      intro d hd
      by_cases hdc : d = c
      · simp [hdc]
      · simp [hbest d hd hdc]
    apply eq_singleton_of_nodup _ c (hnd.filter _)
      (List.mem_filter.mpr ⟨hc, hcpred⟩)
    intro w hw
    have hw2 := List.mem_filter.mp hw
    by_cases hwc : w = c
    · exact hwc
    · have h3 := List.all_eq_true.mp hw2.2 c hc
      rcases Bool.or_eq_true_iff.mp h3 with h4 | h4
      · exact (beq_iff_eq.mp h4).symm
      · have h5 : rk w < rk c := of_decide_eq_true h4
        have h6 : rk c < rk w := hbest w hw2.1 hwc
        exact absurd h6 (Nat.lt_asymm h5)

end TypeLevelLemmas

/-- C4: for every alternative type `T` in the variant's list and every value
`v` of type `T`, constructing a variant from `v` yields `index() ==
indexOf(T)` (the position of `T`'s first occurrence in the list) and
`get<T>(x)` equal to `v`.  The hypotheses record that same-type
list-initialisation is non-narrowing (`NotNarrow<T, T>`) and that
constructing `T` from a `T` value preserves the value. -/
theorem C4_converting_ctor_exact {V Ty : Type} [DecidableEq Ty] (nn : Ty → Ty → Bool)
    (rank : Ty → Ty → Nat) (conv : Ty → Ty → V → V) (ts : List Ty) (t : Ty) (v : V)
    (hmem : t ∈ ts) (hnn : nn t t = true) (hconv : conv t t v = v) :
    ∃ i, IndexOf t ts = some i
      ∧ convertingCtor nn rank conv ts t v = some { type_idx_ := i, storage_ := v }
      ∧ Variant.index { type_idx_ := i, storage_ := v } = i
      ∧ getType t ts { type_idx_ := i, storage_ := v } = .ok v := by
  obtain ⟨i, hi⟩ := indexOfAux_isSome t ts 0 hmem
  have hi2 : IndexOf t ts = some i := hi
  have hcc : chooseConvertibleT nn rank t ts = some t :=
    chooseConvertibleT_exact nn rank t ts hmem hnn
  refine ⟨i, hi2, ?_, rfl, ?_⟩
  · simp [convertingCtor, hcc, hi2, hconv]
  · simp [getType, hi2, getIdx, get_if]

/-- Witness for C4 at a concrete instance: the type universe is `Nat`, the
list is `[5, 7]`, the constructed value is `42` of alternative type `7`. -/
theorem C4_converting_ctor_exact_witness :
    ∃ i, IndexOf 7 [5, 7] = some i
      ∧ convertingCtor (fun a b => a ≤ b) (fun _ u => u) (fun _ _ v => v) [5, 7] 7 (42 : Nat)
          = some { type_idx_ := i, storage_ := 42 }
      ∧ Variant.index { type_idx_ := i, storage_ := (42 : Nat) } = i
      ∧ getType 7 [5, 7] { type_idx_ := i, storage_ := (42 : Nat) } = .ok 42 :=
  C4_converting_ctor_exact (fun a b => a ≤ b) (fun _ u => u) (fun _ _ v => v) [5, 7] 7 42
    (by decide) (by decide) rfl

/-- C7 as stated is false on the code: overload resolution ranks conversion
sequences, so an input type that is not an alternative can have MORE than one
non-narrowing match and still be accepted when one candidate ranks strictly
better — as `Variant<int, long>` constructed from a `short`, where the
promotion `short → int` beats the conversion `short → long`.  Concretely:
input `1` is not in the list `[10, 20]`, both alternatives are non-narrowing
matches, they are distinct, and yet the resolver selects `10` instead of
rejecting. -/
theorem C7_claim_counterexample :
    (1 : Nat) ∉ [10, 20]
    ∧ nnAllC7 1 10 = true ∧ nnAllC7 1 20 = true ∧ (10 : Nat) ≠ 20
    ∧ chooseConvertibleT nnAllC7 rankC7 1 [10, 20] = some 10 := by
  refine ⟨by decide, rfl, rfl, by decide, by decide⟩

/-- C7 amended: for an input type that is not itself an alternative,
converting construction/assignment selects an alternative `c` exactly when
`c` is a non-narrowing match whose conversion sequence ranks strictly better
than that of every other non-narrowing alternative; when no alternative
matches, or the best rank is tied between distinct alternatives, the
conversion is rejected at compile time (`ChooseConvertibleT` ill-formed,
never a runtime failure). -/
theorem C7_conversion_unique_amended {Ty : Type} [DecidableEq Ty]
    (nn : Ty → Ty → Bool) (rank : Ty → Ty → Nat)
    (ts : List Ty) (t : Ty) (h : t ∉ ts) (c : Ty) :
    chooseConvertibleT nn rank t ts = some c ↔
      (c ∈ ts ∧ nn t c = true
        ∧ ∀ u ∈ ts, nn t u = true → u ≠ c → rank t c < rank t u) := by
  have hni : t ∉ (ts.filter fun u => nn t u).dedup := fun hm =>
    h (List.mem_of_mem_filter (List.mem_dedup.mp hm))
  have hkey := bestCandidates_spec (rank t) ((ts.filter fun u => nn t u).dedup) c
    (List.nodup_dedup _)
  unfold chooseConvertibleT
  rw [if_neg hni]
  constructor
  · intro hcc
    cases hd : (ts.filter fun u => nn t u).dedup.filter
        (fun c2 => ((ts.filter fun u => nn t u).dedup).all
          fun d => d == c2 || decide (rank t c2 < rank t d)) with
    | nil =>
      rw [hd] at hcc
      have hcc2 : (none : Option Ty) = some c := hcc
      exact Option.noConfusion hcc2
    | cons a l =>
      cases l with
      | nil =>
        rw [hd] at hcc
        have hcc2 : some a = some c := hcc
        have hac : a = c := by injection hcc2
        rw [hac] at hd
        obtain ⟨hcm, hbest⟩ := hkey.mp hd
        have hcf := List.mem_filter.mp (List.mem_dedup.mp hcm)
        refine ⟨hcf.1, hcf.2, ?_⟩
        intro u hu hnu hne
        have hum : u ∈ (ts.filter fun u2 => nn t u2).dedup :=
          List.mem_dedup.mpr (List.mem_filter.mpr ⟨hu, hnu⟩)
        exact hbest u hum hne
      | cons b l2 =>
        rw [hd] at hcc
        have hcc2 : (none : Option Ty) = some c := hcc
        exact Option.noConfusion hcc2
  · rintro ⟨hc1, hc2, hall⟩
    have hcm : c ∈ (ts.filter fun u => nn t u).dedup :=
      List.mem_dedup.mpr (List.mem_filter.mpr ⟨hc1, hc2⟩)
    have hd := hkey.mpr ⟨hcm, ?_⟩
    · rw [hd]
    · intro d hd2 hdc
      have hdf := List.mem_filter.mp (List.mem_dedup.mp hd2)
      exact hall d hdf.1 hdf.2 hdc

/-- Witness for C7's amended theorem at the counterexample instance: the
resolver picks `10` because its conversion ranks strictly better than the
only other non-narrowing match `20`. -/
theorem C7_conversion_unique_amended_witness :
    chooseConvertibleT nnAllC7 rankC7 1 [10, 20] = some 10 ↔
      ((10 : Nat) ∈ [10, 20] ∧ nnAllC7 1 10 = true
        ∧ ∀ u ∈ [10, 20], nnAllC7 1 u = true → u ≠ 10 → rankC7 1 10 < rankC7 1 u) :=
  C7_conversion_unique_amended nnAllC7 rankC7 [10, 20] 1 (by decide) 10

/-- C6: checked `get` raises the AlternativeMismatch error exactly when the
discriminant does not match the requested alternative or the variant is
valueless; `get_if` returns null in the same cases, returns null when passed
a null variant pointer, and never throws; likewise for the by-type forms
delegating through `IndexOf`. -/
theorem C6_get_mismatch {V Ty : Type} [DecidableEq Ty] (ts : List Ty) (t : Ty) (i : Nat)
    (hti : IndexOf t ts = some i) (hN : ts.length ≤ variant_npos) (v : Variant V) :
    (getIdx i v = .error () ↔ (v.type_idx_ ≠ i ∨ v.type_idx_ = variant_npos))
    ∧ (get_if i (some v) = none ↔ (v.type_idx_ ≠ i ∨ v.type_idx_ = variant_npos))
    ∧ get_if i (none : Option (Variant V)) = none
    ∧ (getType t ts v = .error () ↔ (v.type_idx_ ≠ i ∨ v.type_idx_ = variant_npos))
    ∧ (get_ifType t ts (some v) = none ↔ (v.type_idx_ ≠ i ∨ v.type_idx_ = variant_npos))
    ∧ get_ifType t ts (none : Option (Variant V)) = none := by
  have hb := indexOfAux_bounds t ts 0 i hti
  have hip : i ≠ variant_npos := Nat.ne_of_lt (lt_of_lt_of_le (by omega) hN)
  have hgi : get_if i (some v) = none ↔ (v.type_idx_ ≠ i ∨ v.type_idx_ = variant_npos) := by
    unfold get_if
    dsimp only
    by_cases hc : i = v.type_idx_
    · rw [if_neg (not_not_intro hc)]
      constructor
      · intro hh; exact Option.noConfusion hh
      · rintro (hh | hh)
        · exact absurd hc.symm hh
        · exact absurd (hc.trans hh) hip
    · rw [if_pos hc]
      constructor
      · intro _; exact Or.inl (fun he => hc he.symm)
      · intro _; rfl
  have hge : getIdx i v = .error () ↔ (v.type_idx_ ≠ i ∨ v.type_idx_ = variant_npos) := by
    rw [← hgi]
    unfold getIdx
    cases hg : get_if i (some v) with
    | some x => simp
    | none => simp
  refine ⟨hge, hgi, rfl, ?_, ?_, ?_⟩
  · unfold getType
    rw [hti]
    exact hge
  · unfold get_ifType
    rw [hti]
    exact hgi
  · unfold get_ifType
    rw [hti]
    rfl

/-- Witness for C6 at a concrete instance: the list is `[5, 7]`, the
requested alternative is `7` at position `1`, and the variant holds
alternative `0`, so checked access fails and pointer access is null. -/
theorem C6_get_mismatch_witness :
    getIdx 1 (⟨0, 99⟩ : Variant Nat) = .error () ↔
      ((⟨0, (99 : Nat)⟩ : Variant Nat).type_idx_ ≠ 1
        ∨ (⟨0, (99 : Nat)⟩ : Variant Nat).type_idx_ = variant_npos) :=
  (C6_get_mismatch [5, 7] 7 1 (by decide) (by decide) ⟨0, 99⟩).1

/-- C3: for a variant holding a live alternative, `emplace<i>(args...)` first
destroys the current live object and then constructs the new one; if the new
alternative's constructor throws, the exception propagates and afterwards
`valueless_by_exception()` is true and `index()` returns the sentinel, even
though the variant held a valid alternative immediately before the call. -/
theorem C3_emplace_throw_valueless {V : Type} (N i : Nat) (x : Variant V)
    (hx : x.type_idx_ < N) :
    emplaceOp N i (Except.error ()) x
      = .error { type_idx_ := variant_npos, storage_ := x.storage_ }
    ∧ Variant.valueless_by_exception
        { type_idx_ := variant_npos, storage_ := x.storage_ } = true
    ∧ Variant.index { type_idx_ := variant_npos, storage_ := x.storage_ }
        = variant_npos := by
  refine ⟨?_, by simp [Variant.valueless_by_exception], rfl⟩
  simp only [emplaceOp]
  rw [destroy_live hx]

/-- Witness for C3: a two-alternative variant holding alternative `0` with
value `5`; a throwing `emplace<1>` leaves it valueless. -/
theorem C3_emplace_throw_valueless_witness :
    emplaceOp 2 1 (Except.error ()) (⟨0, 5⟩ : Variant Nat)
      = .error { type_idx_ := variant_npos, storage_ := 5 } :=
  (C3_emplace_throw_valueless 2 1 ⟨0, 5⟩ (by decide)).1

/-- C10: a copy or move assignment whose source is valueless completes
without error and leaves the target valueless: a live target is destroyed
(discriminant becomes the sentinel, the stale storage remains); an already
valueless target is unchanged. -/
theorem C10_assign_from_valueless {V : Type} [Inhabited V] (alts : Nat → AltOps V)
    (N : Nat) (x y : Variant V) (hN : N ≤ variant_npos)
    (hsrc : y.type_idx_ = variant_npos) :
    (x.type_idx_ < N →
      moveAssignOp alts N x y = .ok ({ type_idx_ := variant_npos, storage_ := x.storage_ }, y)
      ∧ copyAssignOp alts N x y = .ok { type_idx_ := variant_npos, storage_ := x.storage_ })
    ∧ (x.type_idx_ = variant_npos →
      moveAssignOp alts N x y = .ok (x, y) ∧ copyAssignOp alts N x y = .ok x) := by
  constructor
  · intro hlt
    have hxn : ¬x.type_idx_ = variant_npos := Nat.ne_of_lt (lt_of_lt_of_le hlt hN)
    constructor
    · unfold moveAssignOp
      rw [if_pos hsrc, if_neg hxn, destroy_live hlt]
    · unfold copyAssignOp
      rw [if_pos hsrc, if_neg hxn, destroy_live hlt]
  · intro heq
    constructor
    · unfold moveAssignOp
      rw [if_pos hsrc, if_pos heq]
    · unfold copyAssignOp
      rw [if_pos hsrc, if_pos heq]

/-- Witness for C10: trivial alternatives, live target `(0, 5)`, valueless
source: the move assignment succeeds and the target ends valueless. -/
theorem C10_assign_from_valueless_witness :
    moveAssignOp altsTriv 2 ⟨0, 5⟩ ⟨variant_npos, 0⟩
      = .ok ({ type_idx_ := variant_npos, storage_ := 5 }, ⟨variant_npos, 0⟩) :=
  (((C10_assign_from_valueless altsTriv 2 ⟨0, 5⟩ ⟨variant_npos, 0⟩
      (by decide) rfl).1) (by decide)).1

/-- C9: a successful move (move construction or move assignment) from a
variant holding a live alternative leaves the source with its `index()`
unchanged (the same alternative, in a moved-from state) and never valueless
merely because the move succeeded. -/
theorem C9_move_source_same_alternative {V : Type} [Inhabited V]
    (alts : Nat → AltOps V) (N : Nat) (y : Variant V)
    (hN : N ≤ variant_npos) (hy : y.type_idx_ < N) :
    (∀ p, moveCtorOp alts N y = .ok p →
      p.2.type_idx_ = y.type_idx_ ∧ p.2.valueless_by_exception = false
        ∧ p.1.type_idx_ = y.type_idx_)
    ∧ (∀ (x : Variant V) p, moveAssignOp alts N x y = .ok p →
      p.2.type_idx_ = y.type_idx_ ∧ p.2.valueless_by_exception = false) := by
  have hyn : ¬y.type_idx_ = variant_npos := Nat.ne_of_lt (lt_of_lt_of_le hy hN)
  have hvl : ∀ w : Variant V, w.type_idx_ = y.type_idx_ →
      w.valueless_by_exception = false := by
    intro w hw
    simp only [Variant.valueless_by_exception, hw]
    exact beq_eq_false_iff_ne.mpr hyn
  constructor
  · intro p hp
    unfold moveCtorOp at hp
    cases hm : moveConstructAux alts 0 N
        { type_idx_ := y.type_idx_, storage_ := default } y with
    | ok q =>
      rw [hm] at hp
      have hp2 : Except.ok q = Except.ok p := hp
      have hq := moveConstructAux_ok_idx alts N 0 _ y q hm
      injection hp2 with h2
      subst h2
      exact ⟨hq.2, hvl _ hq.2, hq.1⟩
    | error q =>
      rw [hm] at hp
      have hp2 : Except.error q.2 = Except.ok p := hp
      exact Except.noConfusion hp2
  · intro x p hp
    unfold moveAssignOp at hp
    rw [if_neg hyn] at hp
    by_cases hxe : x.type_idx_ = y.type_idx_
    · rw [if_pos hxe] at hp
      have hq := moveAssignSameAux_ok_idx alts N 0 x y p hp
      exact ⟨hq.2, hvl _ hq.2⟩
    · rw [if_neg hxe] at hp
      cases hm : moveConstructAux alts 0 N (destroy N x) y with
      | ok q =>
        rw [hm] at hp
        have hp2 : Except.ok ({ q.1 with type_idx_ := q.2.type_idx_ }, q.2)
            = Except.ok p := hp
        have hq := moveConstructAux_ok_idx alts N 0 _ y q hm
        injection hp2 with h2
        subst h2
        exact ⟨hq.2, hvl _ hq.2⟩
      | error q =>
        rw [hm] at hp
        have hp2 : Except.error q = Except.ok p := hp
        exact Except.noConfusion hp2

/-- Witness for C9: moving a trivial-alternative variant `(1, 4)` into `(0,
9)` via move assignment succeeds and leaves the source's index `1`
unchanged. -/
theorem C9_move_source_same_alternative_witness :
    (⟨1, (0 : Nat)⟩ : Variant Nat).type_idx_ = (⟨1, (4 : Nat)⟩ : Variant Nat).type_idx_
    ∧ (⟨1, (0 : Nat)⟩ : Variant Nat).valueless_by_exception = false :=
  (C9_move_source_same_alternative altsTriv 2 ⟨1, 4⟩ (by decide) (by decide)).2
    ⟨0, 9⟩ (⟨1, 4⟩, ⟨1, 0⟩) rfl

/-- C5: swapping two variants that hold different live alternatives, with no
move throwing, exchanges their discriminants and values exactly.  The
hypotheses record that both live alternatives' move constructors succeed and
produce the moved value (`b1`/`a1` are the moved-from states left behind). -/
theorem C5_swap_exchanges {V : Type} [Inhabited V] (alts : Nat → AltOps V)
    (N : Nat) (x y : Variant V) (b1 a1 : V)
    (hx : x.type_idx_ < N) (hy : y.type_idx_ < N) (hne : x.type_idx_ ≠ y.type_idx_)
    (hmy : (alts y.type_idx_).move y.storage_ = .ok (y.storage_, b1))
    (hmx : (alts x.type_idx_).move x.storage_ = .ok (x.storage_, a1)) :
    swapOp alts N x y
      = .ok ({ type_idx_ := y.type_idx_, storage_ := y.storage_ },
             { type_idx_ := x.type_idx_, storage_ := x.storage_ }) := by
  have h1 : ¬(x.type_idx_ = variant_npos ∧ y.type_idx_ = variant_npos) := by
    rintro ⟨hh1, hh2⟩
    exact hne (hh1.trans hh2.symm)
  have e1 : moveConstructAux alts 0 N { type_idx_ := y.type_idx_, storage_ := (default : V) } y
      = .ok (⟨y.type_idx_, y.storage_⟩, ⟨y.type_idx_, b1⟩) := by
    rw [moveConstructAux_hit alts N 0 _ y (Nat.zero_le _) (by omega), hmy]
  have e2 : moveConstructAux alts 0 N (⟨variant_npos, b1⟩ : Variant V) x
      = .ok (⟨variant_npos, x.storage_⟩, ⟨x.type_idx_, a1⟩) := by
    rw [moveConstructAux_hit alts N 0 _ x (Nat.zero_le _) (by omega), hmx]
  have e3 : moveConstructAux alts 0 N (⟨variant_npos, a1⟩ : Variant V)
      ⟨y.type_idx_, y.storage_⟩
      = .ok (⟨variant_npos, y.storage_⟩, ⟨y.type_idx_, b1⟩) := by
    rw [moveConstructAux_hit alts N 0 _ ⟨y.type_idx_, y.storage_⟩ (Nat.zero_le _)
      (by simpa using hy)]
    simp [hmy]
  unfold swapOp
  rw [if_neg h1, if_neg hne]
  simp only [e1, e2, e3]

/-- Witness for C5: the spec's scenario with `x` holding `int(1)` at index 1
and `y` holding `char('a')` (code 97) at index 0; after the swap they are
exchanged exactly. -/
theorem C5_swap_exchanges_witness :
    swapOp altsTriv 2 ⟨1, 1⟩ ⟨0, 97⟩
      = .ok ({ type_idx_ := 0, storage_ := 97 }, { type_idx_ := 1, storage_ := 1 }) :=
  C5_swap_exchanges altsTriv 2 ⟨1, 1⟩ ⟨0, 97⟩ 0 0
    (by decide) (by decide) (by decide) rfl rfl

/-- C1 as stated is false on the code: with `x` holding alternative 0 whose
move constructor throws and `y` holding alternative 1, `x.swap(y)` propagates
the error but afterwards `x` is NOT valueless (its index 0 and value 7 are
unchanged) while `y` IS valueless (its index is the sentinel, not its
original index 1): the claim asserts the opposite assignment of outcomes. -/
theorem C1_claim_counterexample :
    swapOp altsThrowMove0 2 ⟨0, 7⟩ ⟨1, 3⟩
      = .error (⟨0, 7⟩, ⟨variant_npos, 0⟩)
    ∧ Variant.valueless_by_exception (⟨0, (7 : Nat)⟩ : Variant Nat) = false
    ∧ Variant.index (⟨variant_npos, (0 : Nat)⟩ : Variant Nat) ≠ 1 := by
  refine ⟨rfl, rfl, by decide⟩

/-- C1 amended: if `x` holds alternative `A` whose move constructor throws
(leaving its source unchanged) and `y` holds a different alternative `B`
whose move succeeds, then `x.swap(y)` propagates the error and afterwards
`y.valueless_by_exception()` is true (`y`'s slot was being moved into when
the throw happened, and `B`'s value had already been moved to the temporary)
while `x` is completely unchanged — its index and original `A` value intact,
not valueless. -/
theorem C1_swap_move_throw_amended {V : Type} [Inhabited V] (alts : Nat → AltOps V)
    (N : Nat) (x y : Variant V) (p : V × V)
    (hN : N ≤ variant_npos)
    (hx : x.type_idx_ < N) (hy : y.type_idx_ < N) (hne : x.type_idx_ ≠ y.type_idx_)
    (hmy : (alts y.type_idx_).move y.storage_ = .ok p)
    (hmx : (alts x.type_idx_).move x.storage_ = .error x.storage_) :
    swapOp alts N x y = .error (x, ⟨variant_npos, p.2⟩)
    ∧ Variant.valueless_by_exception (⟨variant_npos, p.2⟩ : Variant V) = true
    ∧ Variant.valueless_by_exception x = false
    ∧ Variant.index x = x.type_idx_ := by
  have h1 : ¬(x.type_idx_ = variant_npos ∧ y.type_idx_ = variant_npos) := by
    rintro ⟨hh1, hh2⟩
    exact hne (hh1.trans hh2.symm)
  have e1 : moveConstructAux alts 0 N { type_idx_ := y.type_idx_, storage_ := (default : V) } y
      = .ok (⟨y.type_idx_, p.1⟩, ⟨y.type_idx_, p.2⟩) := by
    rw [moveConstructAux_hit alts N 0 _ y (Nat.zero_le _) (by omega), hmy]
  have e2 : moveConstructAux alts 0 N (⟨variant_npos, p.2⟩ : Variant V) x
      = .error (⟨variant_npos, p.2⟩, x) := by
    rw [moveConstructAux_hit alts N 0 _ x (Nat.zero_le _) (by omega), hmx]
  refine ⟨?_, by simp [Variant.valueless_by_exception], ?_, rfl⟩
  · unfold swapOp
    rw [if_neg h1, if_neg hne]
    simp only [e1, e2]
  · simp only [Variant.valueless_by_exception]
    exact beq_eq_false_iff_ne.mpr (Nat.ne_of_lt (lt_of_lt_of_le hx hN))

/-- Witness for C1's amended theorem at the counterexample instance. -/
theorem C1_swap_move_throw_amended_witness :
    swapOp altsThrowMove0 2 ⟨0, 7⟩ ⟨1, 3⟩ = .error (⟨0, 7⟩, ⟨variant_npos, 0⟩) :=
  (C1_swap_move_throw_amended altsThrowMove0 2 ⟨0, 7⟩ ⟨1, 3⟩ (3, 0)
    (by decide) (by decide) (by decide) (by decide) rfl rfl).1

/-- C2 as stated is false on the code: with a target holding alternative 0
(value 5) and a source holding alternative 1 whose copy constructor throws
while its move constructor is noexcept (the temporary-then-move shape), the
copy assignment propagates the error but the target is left valueless — its
discriminant is the sentinel, not its original 0 — because `operator=` runs
`destroy<0>()` before `copy_assign<0>` builds the temporary. -/
theorem C2_claim_counterexample :
    copyAssignOp altsThrowCopy1 2 ⟨0, 5⟩ ⟨1, 9⟩ = .error (⟨variant_npos, 5⟩ : Variant Nat)
    ∧ variant_npos ≠ 0 := by
  refine ⟨rfl, by decide⟩

/-- C2 amended: in a cross-alternative copy assignment where the source
alternative's copy constructor may throw and its move constructor cannot
(`!nothrowCopy && nothrowMove`), the code does copy-construct a whole
temporary variant first and then move-constructs from it — but only after
the target's live object has already been destroyed, so a throw during the
copy leaves the target valueless (sentinel discriminant, stale storage), not
unchanged. -/
theorem C2_copy_assign_temp_amended {V : Type} [Inhabited V] (alts : Nat → AltOps V)
    (N : Nat) (x y : Variant V)
    (hN : N ≤ variant_npos)
    (hx : x.type_idx_ < N) (hy : y.type_idx_ < N) (hne : x.type_idx_ ≠ y.type_idx_)
    (hnc : (alts y.type_idx_).nothrowCopy = false)
    (hnm : (alts y.type_idx_).nothrowMove = true) :
    copyAssignOp alts N x y =
      match (alts y.type_idx_).copy y.storage_ with
      | .error _ => .error { type_idx_ := variant_npos, storage_ := x.storage_ }
      | .ok c =>
        match (alts y.type_idx_).move c with
        | .ok p => .ok { type_idx_ := y.type_idx_, storage_ := p.1 }
        | .error _ => .error { type_idx_ := variant_npos, storage_ := x.storage_ } := by
  have hyn : ¬y.type_idx_ = variant_npos := Nat.ne_of_lt (lt_of_lt_of_le hy hN)
  have hcond : ((alts y.type_idx_).nothrowCopy || !(alts y.type_idx_).nothrowMove) = false := by
    rw [hnc, hnm]
    rfl
  unfold copyAssignOp
  rw [if_neg hyn, if_neg hne, destroy_live hx,
    copyAssignAux_hit alts N 0 ⟨variant_npos, x.storage_⟩ y (Nat.zero_le _) (by omega),
    copyCtorOp_live alts hy]
  simp only [hcond, Bool.false_eq_true, if_false]
  cases hc : (alts y.type_idx_).copy y.storage_ with
  | error e => simp
  | ok c =>
    cases hm : (alts y.type_idx_).move c with
    | ok p => simp [hm]
    | error e => simp [hm]

/-- Witness for C2's amended theorem at the counterexample instance. -/
theorem C2_copy_assign_temp_amended_witness :
    copyAssignOp altsThrowCopy1 2 ⟨0, 5⟩ ⟨1, 9⟩ =
      match (altsThrowCopy1 1).copy 9 with
      | .error _ => .error { type_idx_ := variant_npos, storage_ := 5 }
      | .ok c =>
        match (altsThrowCopy1 1).move c with
        | .ok p => .ok { type_idx_ := 1, storage_ := p.1 }
        | .error _ => .error { type_idx_ := variant_npos, storage_ := 5 } :=
  C2_copy_assign_temp_amended altsThrowCopy1 2 ⟨0, 5⟩ ⟨1, 9⟩
    (by decide) (by decide) (by decide) (by decide) rfl rfl

/-- C8 as stated is false on the code: a move assignment whose source is
already valueless completes successfully (no exception) and yet leaves the
target's discriminant at the sentinel — a successful operation whose result
is the sentinel, contradicting the claim's universal statement. -/
theorem C8_claim_counterexample :
    moveAssignOp altsTriv 2 ⟨0, 5⟩ ⟨variant_npos, 0⟩
      = .ok (⟨variant_npos, 5⟩, ⟨variant_npos, 0⟩)
    ∧ Variant.valueless_by_exception (⟨variant_npos, (5 : Nat)⟩ : Variant Nat) = true := by
  refine ⟨rfl, rfl⟩

/-- C8 amended: provided no operand is valueless beforehand (and the
emplace/in-place/resolved indices are in range), every successful variant
operation — default, in-place, converting, copy and move construction; copy,
move and converting assignment; emplace; swap — leaves a non-sentinel
discriminant; the sentinel arises only from a failed operation or from
copying/moving/assigning an already-valueless operand. -/
theorem C8_success_not_sentinel_amended {V Ty : Type} [Inhabited V] [DecidableEq Ty]
    (alts : Nat → AltOps V) (N i : Nat) (r ri rd : Except Unit V)
    (co : ConvOps V) (x y : Variant V)
    (nn : Ty → Ty → Bool) (rank : Ty → Ty → Nat) (conv : Ty → Ty → V → V)
    (ts : List Ty) (t : Ty) (v : V)
    (hN : N ≤ variant_npos) (hx : x.type_idx_ < N) (hy : y.type_idx_ < N)
    (hi : i < N) (hto : co.toIdx < N) (hts : ts.length ≤ variant_npos) :
    (∀ s, defaultCtorOp rd = .ok s → s.type_idx_ ≠ variant_npos)
    ∧ (∀ s, inPlaceCtorOp i ri = .ok s → s.type_idx_ ≠ variant_npos)
    ∧ (∀ s, convertingCtor nn rank conv ts t v = some s → s.type_idx_ ≠ variant_npos)
    ∧ (∀ s, copyCtorOp alts N y = .ok s → s.type_idx_ ≠ variant_npos)
    ∧ (∀ p, moveCtorOp alts N y = .ok p →
      p.1.type_idx_ ≠ variant_npos ∧ p.2.type_idx_ ≠ variant_npos)
    ∧ (∀ p, moveAssignOp alts N x y = .ok p →
      p.1.type_idx_ ≠ variant_npos ∧ p.2.type_idx_ ≠ variant_npos)
    ∧ (∀ s, copyAssignOp alts N x y = .ok s → s.type_idx_ ≠ variant_npos)
    ∧ (∀ s, convertAssignOp alts N co x = .ok s → s.type_idx_ ≠ variant_npos)
    ∧ (∀ s, emplaceOp N i r x = .ok s → s.type_idx_ ≠ variant_npos)
    ∧ (∀ p, swapOp alts N x y = .ok p →
      p.1.type_idx_ ≠ variant_npos ∧ p.2.type_idx_ ≠ variant_npos) := by
  have hxn : x.type_idx_ ≠ variant_npos := Nat.ne_of_lt (lt_of_lt_of_le hx hN)
  have hyn : y.type_idx_ ≠ variant_npos := Nat.ne_of_lt (lt_of_lt_of_le hy hN)
  have hin : i ≠ variant_npos := Nat.ne_of_lt (lt_of_lt_of_le hi hN)
  have hton : co.toIdx ≠ variant_npos := Nat.ne_of_lt (lt_of_lt_of_le hto hN)
  refine ⟨?_, ?_, ?_, ?_, ?_, ?_, ?_, ?_, ?_, ?_⟩
  · intro s hs
    cases rd with
    | ok w =>
      have hs2 : Except.ok ({ type_idx_ := 0, storage_ := w } : Variant V)
          = Except.ok s := hs
      injection hs2 with h2
      subst h2
      show (0 : Nat) ≠ variant_npos
      decide
    | error e =>
      have hs2 : (Except.error () : Except Unit (Variant V)) = Except.ok s := hs
      exact Except.noConfusion hs2
  · intro s hs
    cases ri with
    | ok w =>
      have hs2 : Except.ok ({ type_idx_ := i, storage_ := w } : Variant V)
          = Except.ok s := hs
      injection hs2 with h2
      subst h2
      exact hin
    | error e =>
      have hs2 : (Except.error () : Except Unit (Variant V)) = Except.ok s := hs
      exact Except.noConfusion hs2
  · intro s hs
    unfold convertingCtor at hs
    cases hcc : chooseConvertibleT nn rank t ts with
    | none =>
      rw [hcc] at hs
      exact Option.noConfusion hs
    | some toT =>
      rw [hcc] at hs
      have hs3 : (match IndexOf toT ts with
          | none => none
          | some j => some ({ type_idx_ := j, storage_ := conv t toT v } : Variant V))
          = some s := hs
      cases hio : IndexOf toT ts with
      | none =>
        rw [hio] at hs3
        exact Option.noConfusion hs3
      | some j =>
        rw [hio] at hs3
        have hs2 : some ({ type_idx_ := j, storage_ := conv t toT v } : Variant V)
            = some s := hs3
        injection hs2 with h2
        subst h2
        have hb := indexOfAux_bounds toT ts 0 j hio
        show j ≠ variant_npos
        exact Nat.ne_of_lt (lt_of_lt_of_le (by omega) hts)
  · intro s hs
    unfold copyCtorOp at hs
    cases hm : copyConstructAux alts 0 N
        { type_idx_ := y.type_idx_, storage_ := default } y with
    | ok w =>
      rw [hm] at hs
      have hs2 : Except.ok w = Except.ok s := hs
      have hq := copyConstructAux_ok_idx alts N 0 _ y w hm
      injection hs2 with h2
      subst h2
      rw [hq]
      exact hyn
    | error w =>
      rw [hm] at hs
      have hs2 : (Except.error () : Except Unit (Variant V)) = Except.ok s := hs
      exact Except.noConfusion hs2
  · intro p hp
    unfold moveCtorOp at hp
    cases hm : moveConstructAux alts 0 N
        { type_idx_ := y.type_idx_, storage_ := default } y with
    | ok q =>
      rw [hm] at hp
      have hp2 : Except.ok q = Except.ok p := hp
      have hq := moveConstructAux_ok_idx alts N 0 _ y q hm
      injection hp2 with h2
      subst h2
      exact ⟨hq.1 ▸ hyn, hq.2 ▸ hyn⟩
    | error q =>
      rw [hm] at hp
      have hp2 : Except.error q.2 = Except.ok p := hp
      exact Except.noConfusion hp2
  · intro p hp
    unfold moveAssignOp at hp
    rw [if_neg hyn] at hp
    by_cases hxe : x.type_idx_ = y.type_idx_
    · rw [if_pos hxe] at hp
      have hq := moveAssignSameAux_ok_idx alts N 0 x y p hp
      exact ⟨hq.1 ▸ hxn, hq.2 ▸ hyn⟩
    · rw [if_neg hxe] at hp
      cases hm : moveConstructAux alts 0 N (destroy N x) y with
      | ok q =>
        rw [hm] at hp
        have hp2 : Except.ok ({ q.1 with type_idx_ := q.2.type_idx_ }, q.2)
            = Except.ok p := hp
        have hq := moveConstructAux_ok_idx alts N 0 _ y q hm
        injection hp2 with h2
        subst h2
        exact ⟨hq.2 ▸ hyn, hq.2 ▸ hyn⟩
      | error q =>
        rw [hm] at hp
        have hp2 : Except.error q = Except.ok p := hp
        exact Except.noConfusion hp2
  · intro s hs
    unfold copyAssignOp at hs
    rw [if_neg hyn] at hs
    by_cases hxe : x.type_idx_ = y.type_idx_
    · rw [if_pos hxe] at hs
      cases hm : copyAssignSameAux alts 0 N x y with
      | ok w =>
        rw [hm] at hs
        have hs2 : Except.ok { w with type_idx_ := y.type_idx_ } = Except.ok s := hs
        injection hs2 with h2
        subst h2
        exact hyn
      | error w =>
        rw [hm] at hs
        have hs2 : Except.error w = Except.ok s := hs
        exact Except.noConfusion hs2
    · rw [if_neg hxe] at hs
      cases hm : copyAssignAux alts N 0 N (destroy N x) y with
      | ok w =>
        rw [hm] at hs
        have hs2 : Except.ok { w with type_idx_ := y.type_idx_ } = Except.ok s := hs
        injection hs2 with h2
        subst h2
        exact hyn
      | error w =>
        rw [hm] at hs
        have hs2 : Except.error w = Except.ok s := hs
        exact Except.noConfusion hs2
  · intro s hs
    unfold convertAssignOp at hs
    rcases convertAssignAux_ok_idx alts co N 0 x s hs with h | h
    · rw [h]
      exact hxn
    · rw [h]
      exact hton
  · intro s hs
    simp only [emplaceOp] at hs
    cases r with
    | ok w =>
      have hs2 : Except.ok ({ type_idx_ := i, storage_ := w } : Variant V)
          = Except.ok s := hs
      injection hs2 with h2
      subst h2
      exact hin
    | error e =>
      have hs2 : Except.error (destroy N x) = Except.ok s := hs
      exact Except.noConfusion hs2
  · intro p hp
    unfold swapOp at hp
    rw [if_neg (fun hc => hxn hc.1)] at hp
    by_cases hxe : x.type_idx_ = y.type_idx_
    · rw [if_pos hxe] at hp
      have hq := swapSameAux_ok_idx alts N 0 x y p hp
      constructor
      · rcases hq.1 with h | h
        · exact h ▸ hxn
        · exact h ▸ hyn
      · rcases hq.2 with h | h
        · exact h ▸ hxn
        · exact h ▸ hyn
    · rw [if_neg hxe] at hp
      split at hp
      · exact Except.noConfusion hp
      · rename_i tmp other1 heq1
        split at hp
        · exact Except.noConfusion hp
        · rename_i other2 self1 heq2
          split at hp
          · exact Except.noConfusion hp
          · rename_i self2 tmp1 heq3
            injection hp with h2
            subst h2
            have f1 := moveConstructAux_ok_idx alts N 0 _ y (tmp, other1) heq1
            have f2 := moveConstructAux_ok_idx alts N 0 _ x (other2, self1) heq2
            have f3 := moveConstructAux_ok_idx alts N 0 _ tmp (self2, tmp1) heq3
            have g1 : tmp.type_idx_ = y.type_idx_ := f1.1
            have g2 : self1.type_idx_ = x.type_idx_ := f2.2
            have g3 : tmp1.type_idx_ = tmp.type_idx_ := f3.2
            constructor
            · show tmp1.type_idx_ ≠ variant_npos
              rw [g3, g1]
              exact hyn
            · show self1.type_idx_ ≠ variant_npos
              rw [g2]
              exact hxn

/-- Witness for C8's amended theorem: a successful trivial swap of live
variants yields non-sentinel discriminants. -/
theorem C8_success_not_sentinel_amended_witness :
    ((⟨0, 97⟩ : Variant Nat), (⟨1, 1⟩ : Variant Nat)).1.type_idx_ ≠ variant_npos
    ∧ ((⟨0, 97⟩ : Variant Nat), (⟨1, 1⟩ : Variant Nat)).2.type_idx_ ≠ variant_npos :=
  (C8_success_not_sentinel_amended altsTriv 2 0 (Except.ok 0) (Except.ok 0) (Except.ok 0)
    convTriv ⟨1, 1⟩ ⟨0, 97⟩ nnAllC7 rankC7 (fun _ _ w => w) [10, 20] 10 0
    (by decide) (by decide) (by decide) (by decide) (by decide)
    (by decide)).2.2.2.2.2.2.2.2.2
    (⟨0, 97⟩, ⟨1, 1⟩) rfl

end VariantII
